import Mathlib

/-!
Shallow embedding of the `async-shared-timeout` crate (src/src/lib.rs and
src/src/wrapper/*) and proofs about it.

Modelling conventions:
* Machine integers: `u64` values are `Nat`s together with explicit bounds;
  the fallible conversion `u64::try_from(...)` (whose `.unwrap()` panics)
  is `u64try : Nat → Option Nat`; a panic is `none`.  The one unannotated
  `u64 + u64` in `Timeout::reset` is modelled with an explicit `% 2 ^ 64`
  (release-mode wrapping semantics).
* `core::time::Duration` is modelled by its total nanosecond count
  (`Duration.as_nanos()` returns `u128`, exact for every representable
  duration), i.e. by a plain `Nat`.
* Instants (`R::Instant`) are `Nat`s: nanoseconds on the monotonic clock.
  `Instant::duration_since(earlier)` is truncated subtraction, which, like
  the runtime clocks the crate targets, clamps to zero when `earlier` is
  later.
* The `Timeout` struct keeps the source's fields: `epoch`,
  `timeout_from_epoch_ns` and `default_timeout` (the two atomics become
  plain `Nat` fields; each operation of the source becomes a pure function
  from the pre-state, and the current instant where the source calls
  `self.runtime.now()`).
* `Timeout::wait` interacts with the clock and the atomic deadline once per
  `timeout_duration` call; a run of `wait` is therefore determined by the
  trace of `(elapsed, deadline)` pairs those calls observe, including
  deadlines concurrently rewritten by `reset`.  `waitRun` replays the
  source's control flow over such a trace and logs how many sleep objects
  were created, every duration the sleep was re-armed to, and whether the
  wait returned.
-/

/-- Size of the `u64` value space. -/
def u64size : Nat := 2 ^ 64

/-- Model of `u64::try_from(n).unwrap()` on a nonnegative count `n`:
`some n` when `n` fits in 64 bits, `none` (a panic) otherwise. -/
def u64try (n : Nat) : Option Nat :=
  if n < u64size then some n else none

/-- Model of `struct Timeout` (src/src/lib.rs lines 61-67): the captured
epoch instant plus the two atomic `u64` fields.  The generic `runtime`
field carries no state that the modelled operations read besides the
clock, which is passed explicitly. -/
structure Timeout where
  epoch : Nat
  timeout_from_epoch_ns : Nat
  default_timeout : Nat
deriving DecidableEq, Repr

/-- Model of `Timeout::new` (src/src/lib.rs lines 75-84): capture
`epoch = runtime.now()` (the `now` argument), convert the default
duration to `u64` nanoseconds (panic = `none` when it does not fit) and
store the result in both `timeout_from_epoch_ns` and `default_timeout`. -/
def Timeout.new (now : Nat) (default_timeout : Nat) : Option Timeout :=
  (u64try default_timeout).map fun d =>
    { epoch := now, timeout_from_epoch_ns := d, default_timeout := d }

/-- Model of `Timeout::elapsed` (src/src/lib.rs lines 86-88):
`runtime.now().duration_since(&self.epoch)`, i.e. clamped subtraction. -/
def Timeout.elapsed (t : Timeout) (now : Nat) : Nat :=
  now - t.epoch

/-- Model of `Timeout::reset` (src/src/lib.rs lines 96-98): convert the
elapsed nanoseconds to `u64` (panic = `none` when they do not fit), add
the current default (wrapping `u64` addition) and store the sum into
`timeout_from_epoch_ns` unconditionally. -/
def Timeout.reset (t : Timeout) (now : Nat) : Option Timeout :=
  (u64try (t.elapsed now)).map fun e =>
    { t with timeout_from_epoch_ns := (e + t.default_timeout) % u64size }

/-- Model of the getter `Timeout::default_timeout` (src/src/lib.rs lines
101-103): `Duration::from_nanos` of the loaded atomic, i.e. the stored
nanosecond count read back as a duration. -/
def Timeout.default_timeout_get (t : Timeout) : Nat :=
  t.default_timeout

/-- Model of `Timeout::set_default_timeout` (src/src/lib.rs lines
111-113): convert the duration to `u64` nanoseconds (panic = `none` when
it does not fit) and store it into `default_timeout`. -/
def Timeout.set_default_timeout (t : Timeout) (default_timeout : Nat) :
    Option Timeout :=
  (u64try default_timeout).map fun d => { t with default_timeout := d }

/-- Core of `Timeout::timeout_duration` (src/src/lib.rs lines 115-119) as
a function of the elapsed nanoseconds and the loaded deadline: convert the
elapsed count to `u64` (panic = `none`), then
`(elapsed_nanos < target_nanos).then(|| target_nanos - elapsed_nanos)`. -/
def timeoutDurationNs (elapsedNs deadline : Nat) : Option (Option Nat) :=
  (u64try elapsedNs).map fun e =>
    if e < deadline then some (deadline - e) else none

/-- Model of `Timeout::timeout_duration`: the core applied to this
timeout's elapsed time and its current `timeout_from_epoch_ns`. -/
def Timeout.timeout_duration (t : Timeout) (now : Nat) : Option (Option Nat) :=
  timeoutDurationNs (t.elapsed now) t.timeout_from_epoch_ns

/-- One observation made by a `timeout_duration` call inside
`Timeout::wait`: the elapsed nanoseconds the clock returned and the value
`timeout_from_epoch_ns` held at that moment (concurrent `reset` calls may
change it between observations). -/
structure Obs where
  elapsed : Nat
  deadline : Nat
deriving DecidableEq, Repr

/-- The first observation a `wait` call on timeout `t` at instant `now`
makes: the elapsed time against `t`'s epoch paired with `t`'s current
deadline. -/
def Timeout.waitObs (t : Timeout) (now : Nat) : Obs :=
  { elapsed := t.elapsed now, deadline := t.timeout_from_epoch_ns }

/-- What a run of `Timeout::wait` did over a trace of observations:
how many sleep objects `runtime.create_sleep` produced, the durations
passed to `Sleep.reset` in order, and whether `wait` returned (`false`
means it was still suspended when the trace ended). -/
structure WaitLog where
  sleeps : Nat
  rearms : List Nat
  returned : Bool
deriving DecidableEq, Repr

/-- The `while let Some(instant) = self.timeout_duration()` loop of
`Timeout::wait` (src/src/lib.rs lines 147-150) over the remaining trace:
each iteration re-reads elapsed time and the live deadline; `Some` re-arms
the sleep to the returned remaining duration and suspends, `None` returns.
The outer `none` is the panic of the `u64` conversion inside
`timeout_duration`. -/
def waitLoop : List Obs → Option (List Nat × Bool)
  | [] => some ([], false)
  | o :: rest =>
    match timeoutDurationNs o.elapsed o.deadline with
    | none => none
    | some none => some ([], true)
    | some (some r) => (waitLoop rest).map fun p => (r :: p.1, p.2)

/-- Model of `Timeout::wait` (src/src/lib.rs lines 126-152) over the trace
of observations its `timeout_duration` calls make: if the first
observation says the deadline has passed, return with no sleep created;
otherwise create one sleep object and enter the re-arm loop. -/
def waitRun : List Obs → Option WaitLog
  | [] => some { sleeps := 0, rearms := [], returned := false }
  | o :: rest =>
    match timeoutDurationNs o.elapsed o.deadline with
    | none => none
    | some none => some { sleeps := 0, rearms := [], returned := true }
    | some (some _) =>
      (waitLoop rest).map fun p =>
        { sleeps := 1, rearms := p.1, returned := p.2 }

/-- Characterization of the wait loop on a trace whose elapsed counts all
fit in `u64`: it re-arms once per live observation with exactly that
observation's remaining time, stops at the first observation whose
deadline has passed, and reports whether such an observation exists. -/
theorem waitLoop_eq (rest : List Obs)
    (h : ∀ o ∈ rest, o.elapsed < u64size) :
    waitLoop rest = some
      (((rest.takeWhile fun o => decide (o.elapsed < o.deadline)).map
          fun o => o.deadline - o.elapsed),
        rest.any fun o => decide (o.deadline ≤ o.elapsed)) := by
  induction rest with
  | nil => rfl
  | cons o rest ih =>
    have ho : o.elapsed < u64size := h o (List.mem_cons_self o rest)
    have hrest : ∀ x ∈ rest, x.elapsed < u64size :=
      fun x hx => h x (List.mem_cons_of_mem o hx)
    by_cases hcmp : o.elapsed < o.deadline
    · have hne : ¬ o.deadline ≤ o.elapsed := Nat.not_le.mpr hcmp
      simp [waitLoop, timeoutDurationNs, u64try, ho, hcmp, ih hrest,
        List.takeWhile_cons, List.any_cons, hne]
    · have hle : o.deadline ≤ o.elapsed := Nat.not_lt.mp hcmp
      simp [waitLoop, timeoutDurationNs, u64try, ho, hcmp,
        List.takeWhile_cons, List.any_cons, hle]

/-- On a fitting trace the wait loop never panics. -/
theorem waitLoop_isSome (rest : List Obs)
    (h : ∀ o ∈ rest, o.elapsed < u64size) :
    (waitLoop rest).isSome := by
  rw [waitLoop_eq rest h]
  rfl

/-- Inversion of `Timeout.reset`: it succeeds exactly when the elapsed
time fits in `u64`, and then stores elapsed plus default (wrapping). -/
theorem reset_some_iff (t : Timeout) (now : Nat) (t' : Timeout) :
    t.reset now = some t' ↔
      t.elapsed now < u64size ∧
      t' = { t with timeout_from_epoch_ns :=
                (t.elapsed now + t.default_timeout) % u64size } := by
  constructor
  · intro h
    by_cases he : t.elapsed now < u64size
    · refine ⟨he, ?_⟩
      have := h.symm
      simpa [Timeout.reset, u64try, he] using this
    · simp [Timeout.reset, u64try, he] at h
  · rintro ⟨he, rfl⟩
    simp [Timeout.reset, u64try, he]

/-- Inversion of `Timeout.set_default_timeout`: it succeeds exactly when
the new duration fits in `u64`, and then overwrites only the default. -/
theorem set_default_some_iff (t : Timeout) (d : Nat) (t' : Timeout) :
    t.set_default_timeout d = some t' ↔
      d < u64size ∧ t' = { t with default_timeout := d } := by
  constructor
  · intro h
    by_cases hd : d < u64size
    · refine ⟨hd, ?_⟩
      have := h.symm
      simpa [Timeout.set_default_timeout, u64try, hd] using this
    · simp [Timeout.set_default_timeout, u64try, hd] at h
  · rintro ⟨hd, rfl⟩
    simp [Timeout.set_default_timeout, u64try, hd]

/-- Claim C4: `new(runtime, default_timeout)` captures the clock reading
as `epoch`, stores the default duration's nanosecond count into both
`default_timeout` and `timeout_from_epoch_ns` (so the first deadline is
epoch + default), and panics exactly when that count does not fit in an
unsigned 64-bit integer. -/
theorem new_initializes_fields_and_panics_iff_overflow (now d : Nat) :
    (d < u64size →
      Timeout.new now d =
        some { epoch := now, timeout_from_epoch_ns := d, default_timeout := d }) ∧
    (u64size ≤ d → Timeout.new now d = none) := by
  constructor
  · intro h
    simp [Timeout.new, u64try, h]
  · intro h
    simp [Timeout.new, u64try, Nat.not_lt.mpr h]

/-- Witness for C4 at concrete inputs: a fitting default is stored in
both fields; one of `2 ^ 64` nanoseconds panics. -/
theorem new_initializes_fields_witness :
    Timeout.new 7 5 =
      some { epoch := 7, timeout_from_epoch_ns := 5, default_timeout := 5 } ∧
    Timeout.new 0 (2 ^ 64) = none :=
  ⟨(new_initializes_fields_and_panics_iff_overflow 7 5).1 (by decide),
   (new_initializes_fields_and_panics_iff_overflow 0 (2 ^ 64)).2 (by decide)⟩

/-- Claim C9: `set_default_timeout` followed by `default_timeout` returns
the duration that was set, for every duration whose nanosecond count fits
in `u64`; the getter is a pure read (modelled as a function of the state,
it touches no field), and the setter leaves every other field unchanged. -/
theorem default_timeout_roundtrip (t : Timeout) (d : Nat) (h : d < u64size) :
    ∃ t', t.set_default_timeout d = some t' ∧
      t'.default_timeout_get = d ∧
      t'.epoch = t.epoch ∧
      t'.timeout_from_epoch_ns = t.timeout_from_epoch_ns := by
  refine ⟨{ t with default_timeout := d }, ?_, rfl, rfl, rfl⟩
  simp [Timeout.set_default_timeout, u64try, h]

/-- Witness for C9 at a concrete state and duration. -/
theorem default_timeout_roundtrip_witness :
    ∃ t', Timeout.set_default_timeout ⟨1, 2, 3⟩ 42 = some t' ∧
      t'.default_timeout_get = 42 ∧
      t'.epoch = 1 ∧
      t'.timeout_from_epoch_ns = 2 :=
  default_timeout_roundtrip ⟨1, 2, 3⟩ 42 (by decide)

/-- Claim C5: `set_default_timeout(d)` writes only the `default_timeout`
field: the armed deadline `timeout_from_epoch_ns` and `epoch` are
unchanged, the observable expiry behaviour (`timeout_duration`) is
unchanged, and only a subsequent `reset` uses the new default. -/
theorem set_default_timeout_frame (t : Timeout) (d : Nat) (t' : Timeout)
    (h : t.set_default_timeout d = some t') :
    t'.timeout_from_epoch_ns = t.timeout_from_epoch_ns ∧
    t'.epoch = t.epoch ∧
    (∀ now, t'.timeout_duration now = t.timeout_duration now) ∧
    (∀ now t'', t'.reset now = some t'' →
      t''.timeout_from_epoch_ns = (t.elapsed now + d) % u64size) := by
  obtain ⟨hd, rfl⟩ := (set_default_some_iff t d t').mp h
  refine ⟨rfl, rfl, fun now => rfl, ?_⟩
  intro now t'' hr
  obtain ⟨he, rfl⟩ :=
    (reset_some_iff { t with default_timeout := d } now t'').mp hr
  rfl

/-- Witness for C5 at a concrete state: setting the default from 4 to 2
leaves the armed deadline 9 in place. -/
theorem set_default_timeout_frame_witness :
    Timeout.set_default_timeout ⟨0, 9, 4⟩ 2 = some ⟨0, 9, 2⟩ ∧
    (Timeout.mk 0 9 2).timeout_from_epoch_ns =
      (Timeout.mk 0 9 4).timeout_from_epoch_ns :=
  ⟨by decide,
   (set_default_timeout_frame ⟨0, 9, 4⟩ 2 ⟨0, 9, 2⟩ (by decide)).1⟩

/-- Claim C2: `reset()` stores elapsed-plus-default into
`timeout_from_epoch_ns` unconditionally (the stored value never depends on
the previous deadline); consequently a shorter default can move the
deadline earlier than it was, while re-arming later with a longer default
always lands strictly after the deadline the earlier reset stored.  The
exact postcondition `new deadline = elapsed + default` holds whenever the
sum fits in `u64` (overflow beyond ~584 years is a programming error per
the crate's contract). -/
theorem reset_postcondition :
    (∀ (t : Timeout) (now : Nat) (t' : Timeout), t.reset now = some t' →
      t'.timeout_from_epoch_ns = (t.elapsed now + t.default_timeout) % u64size ∧
      t'.epoch = t.epoch ∧ t'.default_timeout = t.default_timeout) ∧
    (∀ (t : Timeout) (now : Nat),
      t.elapsed now + t.default_timeout < u64size →
      t.reset now = some
        { t with timeout_from_epoch_ns := t.elapsed now + t.default_timeout }) ∧
    (∀ ep dl₁ dl₂ df now : Nat,
      ((Timeout.mk ep dl₁ df).reset now).map Timeout.timeout_from_epoch_ns =
        ((Timeout.mk ep dl₂ df).reset now).map Timeout.timeout_from_epoch_ns) ∧
    ((Timeout.mk 0 100 1).reset 5 = some (Timeout.mk 0 6 1) ∧ 6 < 100) ∧
    (∀ (t t₁ t₂ t₃ : Timeout) (now₀ now₁ d : Nat),
      t.reset now₀ = some t₁ →
      t₁.set_default_timeout d = some t₂ →
      t₂.reset now₁ = some t₃ →
      now₀ ≤ now₁ →
      t.default_timeout < d →
      t.elapsed now₀ + t.default_timeout < u64size →
      now₁ - t.epoch + d < u64size →
      t₁.timeout_from_epoch_ns < t₃.timeout_from_epoch_ns) := by
  refine ⟨?_, ?_, ?_, ⟨by decide, by decide⟩, ?_⟩
  · intro t now t' h
    obtain ⟨he, rfl⟩ := (reset_some_iff t now t').mp h
    exact ⟨rfl, rfl, rfl⟩
  · intro t now h
    have he : t.elapsed now < u64size :=
      lt_of_le_of_lt (Nat.le_add_right _ _) h
    rw [reset_some_iff]
    exact ⟨he, by simp [Nat.mod_eq_of_lt h]⟩
  · intro ep dl₁ dl₂ df now
    cases h : u64try (now - ep) <;>
      simp [Timeout.reset, Timeout.elapsed, h]
  · intro t t₁ t₂ t₃ now₀ now₁ d h₁ h₂ h₃ hmono hd hfit₀ hfit₁
    obtain ⟨he₀, rfl⟩ := (reset_some_iff t now₀ t₁).mp h₁
    obtain ⟨hdlt, rfl⟩ := (set_default_some_iff _ d t₂).mp h₂
    obtain ⟨he₁, rfl⟩ := (reset_some_iff _ now₁ t₃).mp h₃
    have hmod₀ : (t.elapsed now₀ + t.default_timeout) % u64size =
        t.elapsed now₀ + t.default_timeout := Nat.mod_eq_of_lt hfit₀
    have hmod₁ : (now₁ - t.epoch + d) % u64size = now₁ - t.epoch + d :=
      Nat.mod_eq_of_lt hfit₁
    show (t.elapsed now₀ + t.default_timeout) % u64size <
      (now₁ - t.epoch + d) % u64size
    rw [hmod₀, hmod₁]
    exact add_lt_add_of_le_of_lt (Nat.sub_le_sub_right hmono t.epoch) hd

/-- Witness for C2's longer-default extension at concrete values: a reset
at instant 10 with default 1 stores deadline 11; after the default grows
to 5, a reset at instant 20 stores deadline 25 > 11. -/
theorem reset_postcondition_witness :
    (Timeout.mk 0 11 1).timeout_from_epoch_ns <
      (Timeout.mk 0 25 5).timeout_from_epoch_ns :=
  reset_postcondition.2.2.2.2 ⟨0, 0, 1⟩ ⟨0, 11, 1⟩ ⟨0, 11, 5⟩ ⟨0, 25, 5⟩
    10 20 5 (by decide) (by decide) (by decide) (by decide) (by decide)
    (by decide) (by decide)

/-- Claim C3: a `wait()` whose first `timeout_duration` observation finds
the deadline already reached returns immediately: no sleep object is
created (`sleeps = 0`), nothing is re-armed, regardless of what any later
observation would have said. -/
theorem wait_immediate_return_no_sleep (t : Timeout) (now : Nat)
    (rest : List Obs)
    (hfit : t.elapsed now < u64size)
    (hexp : t.timeout_from_epoch_ns ≤ t.elapsed now) :
    waitRun (t.waitObs now :: rest) =
      some { sleeps := 0, rearms := [], returned := true } := by
  simp [waitRun, Timeout.waitObs, timeoutDurationNs, u64try, hfit,
    Nat.not_lt.mpr hexp]

/-- Witness for C3: a timeout armed for 3 ns, observed at elapsed 5 ns. -/
theorem wait_immediate_return_no_sleep_witness :
    waitRun [(Timeout.mk 0 3 3).waitObs 5] =
      some { sleeps := 0, rearms := [], returned := true } :=
  wait_immediate_return_no_sleep ⟨0, 3, 3⟩ 5 [] (by decide) (by decide)

/-- Claim C1: over every trace of observations whose elapsed counts fit
in `u64`, `wait()` returns only after some `timeout_duration` call has
read the live deadline and found elapsed time at least that value; if
every observation still finds remaining time the wait never returns; and
each re-arm after a sleep completion uses exactly the remaining time
recomputed from that iteration's freshly read deadline, never a cached
one. -/
theorem wait_returns_only_after_observed_expiry (obs : List Obs)
    (hfit : ∀ o ∈ obs, o.elapsed < u64size) :
    ∃ log, waitRun obs = some log ∧
      (log.returned = true → ∃ o ∈ obs, o.deadline ≤ o.elapsed) ∧
      ((∀ o ∈ obs, o.elapsed < o.deadline) → log.returned = false) ∧
      (∀ o₀ rest, obs = o₀ :: rest → o₀.elapsed < o₀.deadline →
        log.rearms =
          (rest.takeWhile fun o => decide (o.elapsed < o.deadline)).map
            fun o => o.deadline - o.elapsed) := by
  cases obs with
  | nil =>
    refine ⟨⟨0, [], false⟩, rfl, by simp, fun _ => rfl, ?_⟩
    intro o₀ rest h
    exact (List.cons_ne_nil o₀ rest h.symm).elim
  | cons o rest =>
    have ho : o.elapsed < u64size := hfit o (List.mem_cons_self o rest)
    have hrest : ∀ x ∈ rest, x.elapsed < u64size :=
      fun x hx => hfit x (List.mem_cons_of_mem o hx)
    by_cases hcmp : o.elapsed < o.deadline
    · have hrun : waitRun (o :: rest) = some
          ⟨1, (rest.takeWhile fun x => decide (x.elapsed < x.deadline)).map
                fun x => x.deadline - x.elapsed,
            rest.any fun x => decide (x.deadline ≤ x.elapsed)⟩ := by
        simp [waitRun, timeoutDurationNs, u64try, ho, hcmp,
          waitLoop_eq rest hrest]
      refine ⟨_, hrun, ?_, ?_, ?_⟩
      · intro hret
        obtain ⟨x, hx, hpx⟩ := List.any_eq_true.mp hret
        exact ⟨x, List.mem_cons_of_mem o hx, of_decide_eq_true hpx⟩
      · intro hall
        show (rest.any fun x => decide (x.deadline ≤ x.elapsed)) = false
        rw [List.any_eq_false]
        intro x hx
        simp only [decide_eq_true_eq]
        exact Nat.not_le.mpr (hall x (List.mem_cons_of_mem o hx))
      · intro o₀ rest' heq hlive
        cases heq
        rfl
    · have hle : o.deadline ≤ o.elapsed := Nat.not_lt.mp hcmp
      have hrun : waitRun (o :: rest) = some ⟨0, [], true⟩ := by
        simp [waitRun, timeoutDurationNs, u64try, ho, hcmp]
      refine ⟨_, hrun, ?_, ?_, ?_⟩
      · intro _
        exact ⟨o, List.mem_cons_self o rest, hle⟩
      · intro hall
        exact absurd (hall o (List.mem_cons_self o rest)) hcmp
      · intro o₀ rest' heq hlive
        cases heq
        exact absurd hlive hcmp

/-- Witness for C1 on a concrete trace: first observation live (5 ns
remain), second observation expired. -/
theorem wait_returns_only_after_observed_expiry_witness :
    ∃ log, waitRun [⟨0, 5⟩, ⟨7, 5⟩] = some log ∧
      (log.returned = true →
        ∃ o ∈ [Obs.mk 0 5, Obs.mk 7 5], o.deadline ≤ o.elapsed) ∧
      ((∀ o ∈ [Obs.mk 0 5, Obs.mk 7 5], o.elapsed < o.deadline) →
        log.returned = false) ∧
      (∀ o₀ rest, [Obs.mk 0 5, Obs.mk 7 5] = o₀ :: rest →
        o₀.elapsed < o₀.deadline →
        log.rearms =
          (rest.takeWhile fun o => decide (o.elapsed < o.deadline)).map
            fun o => o.deadline - o.elapsed) :=
  wait_returns_only_after_observed_expiry [⟨0, 5⟩, ⟨7, 5⟩] (by decide)

/-- Counterexample to claim C6 as stated: the elapsed-time conversion
`u64::try_from(self.elapsed().as_nanos()).unwrap()` sits inside
`timeout_duration`, which `wait` calls on every loop iteration; on a trace
whose first observation is live and whose second has elapsed `2 ^ 64`
nanoseconds, the wait loop panics (`none`) after the sleep was created. -/
theorem wait_panic_counterexample :
    waitRun [⟨0, 5⟩, ⟨u64size, 9⟩] = none := by decide

/-- Claim C6 (amended): `wait()` cannot fail as long as the elapsed time
since the epoch fits in `u64` at every observation — but the conversion of
elapsed time to `u64` is performed (and can panic, after ~584 years)
inside the wait loop itself, not eagerly; the duration values accepted by
`new` and `set_default_timeout` are checked eagerly at the call site. -/
theorem wait_no_panic_when_elapsed_fits :
    (∀ obs : List Obs, (∀ o ∈ obs, o.elapsed < u64size) →
      (waitRun obs).isSome) ∧
    (∀ now d : Nat, u64size ≤ d → Timeout.new now d = none) ∧
    (∀ (t : Timeout) (d : Nat), u64size ≤ d →
      t.set_default_timeout d = none) ∧
    (∀ elapsedNs deadline : Nat, u64size ≤ elapsedNs →
      timeoutDurationNs elapsedNs deadline = none) := by
  refine ⟨?_, ?_, ?_, ?_⟩
  · intro obs hfit
    cases obs with
    | nil => rfl
    | cons o rest =>
      have ho : o.elapsed < u64size := hfit o (List.mem_cons_self o rest)
      have hrest : ∀ x ∈ rest, x.elapsed < u64size :=
        fun x hx => hfit x (List.mem_cons_of_mem o hx)
      by_cases hcmp : o.elapsed < o.deadline
      · simp [waitRun, timeoutDurationNs, u64try, ho, hcmp,
          waitLoop_eq rest hrest]
      · simp [waitRun, timeoutDurationNs, u64try, ho, hcmp]
  · intro now d h
    simp [Timeout.new, u64try, Nat.not_lt.mpr h]
  · intro t d h
    simp [Timeout.set_default_timeout, u64try, Nat.not_lt.mpr h]
  · intro elapsedNs deadline h
    simp [timeoutDurationNs, u64try, Nat.not_lt.mpr h]

/-- Witness for amended C6 at concrete inputs: a fitting one-observation
trace completes the run, and a too-large default is rejected eagerly by
`new`. -/
theorem wait_no_panic_when_elapsed_fits_witness :
    (waitRun [Obs.mk 1 2]).isSome ∧ Timeout.new 0 u64size = none :=
  ⟨wait_no_panic_when_elapsed_fits.1 [⟨1, 2⟩] (by decide),
   wait_no_panic_when_elapsed_fits.2.1 0 u64size (by decide)⟩

/-- Claim C10: expiry is strict — `timeout_duration` returns `None` as
soon as elapsed equals the stored deadline and never returns a zero
remaining duration; the subtraction producing a remaining duration never
underflows (elapsed plus the remainder reconstructs the deadline exactly);
and a timeout constructed with a zero default, or reset while the default
is zero, makes `wait()` return immediately with no sleep created. -/
theorem timeout_duration_strict_expiry :
    (∀ (t : Timeout) (now : Nat), t.elapsed now < u64size →
      (t.timeout_duration now = some none ↔
        t.timeout_from_epoch_ns ≤ t.elapsed now)) ∧
    (∀ (t : Timeout) (now r : Nat), t.timeout_duration now = some (some r) →
      0 < r ∧ t.elapsed now + r = t.timeout_from_epoch_ns) ∧
    (∀ (now₀ now₁ : Nat) (t : Timeout) (rest : List Obs),
      Timeout.new now₀ 0 = some t → now₁ - now₀ < u64size →
      waitRun (t.waitObs now₁ :: rest) =
        some { sleeps := 0, rearms := [], returned := true }) ∧
    (∀ (t t' : Timeout) (now₀ now₁ : Nat) (rest : List Obs),
      t.default_timeout = 0 → t.reset now₀ = some t' → now₀ ≤ now₁ →
      t'.elapsed now₁ < u64size →
      waitRun (t'.waitObs now₁ :: rest) =
        some { sleeps := 0, rearms := [], returned := true }) := by
  refine ⟨?_, ?_, ?_, ?_⟩
  · intro t now he
    constructor
    · intro h
      by_cases hlt : t.elapsed now < t.timeout_from_epoch_ns
      · simp [Timeout.timeout_duration, timeoutDurationNs, u64try, he,
          hlt] at h
      · exact Nat.not_lt.mp hlt
    · intro hle
      simp [Timeout.timeout_duration, timeoutDurationNs, u64try, he,
        Nat.not_lt.mpr hle]
  · intro t now r h
    by_cases he : t.elapsed now < u64size
    · by_cases hlt : t.elapsed now < t.timeout_from_epoch_ns
      · have hr : t.timeout_from_epoch_ns - t.elapsed now = r := by
          simpa [Timeout.timeout_duration, timeoutDurationNs, u64try, he,
            hlt] using h
        subst hr
        exact ⟨Nat.sub_pos_of_lt hlt, Nat.add_sub_cancel' (le_of_lt hlt)⟩
      · simp [Timeout.timeout_duration, timeoutDurationNs, u64try, he,
          hlt] at h
    · simp [Timeout.timeout_duration, timeoutDurationNs, u64try, he] at h
  · intro now₀ now₁ t rest hnew hfit
    have h0 : (0 : Nat) < u64size := by decide
    have ht : Timeout.mk now₀ 0 0 = t := by
      simpa [Timeout.new, u64try, h0] using hnew
    subst ht
    simp [waitRun, Timeout.waitObs, Timeout.elapsed, timeoutDurationNs,
      u64try, hfit]
  · intro t t' now₀ now₁ rest hd0 hres hmono hfit
    obtain ⟨he₀, rfl⟩ := (reset_some_iff t now₀ t').mp hres
    have he₀' : now₀ - t.epoch < u64size := he₀
    have hfit' : now₁ - t.epoch < u64size := hfit
    have hdl : ¬ (now₁ - t.epoch <
        (now₀ - t.epoch + t.default_timeout) % u64size) := by
      rw [hd0, Nat.add_zero, Nat.mod_eq_of_lt he₀']
      exact Nat.not_lt.mpr (Nat.sub_le_sub_right hmono t.epoch)
    simp [waitRun, Timeout.waitObs, Timeout.elapsed, timeoutDurationNs,
      u64try, hfit', hdl]

/-- Witness for C10 at concrete inputs: elapsed exactly equal to the
deadline counts as expired; a live observation at elapsed 2 against
deadline 5 leaves remainder 3 with no underflow; a zero-default timeout
returns from `wait` immediately with no sleep. -/
theorem timeout_duration_strict_expiry_witness :
    (Timeout.mk 0 5 5).timeout_duration 5 = some none ∧
    (0 < 3 ∧ (Timeout.mk 0 5 5).elapsed 2 + 3 = 5) ∧
    waitRun [(Timeout.mk 4 0 0).waitObs 9] =
      some { sleeps := 0, rearms := [], returned := true } :=
  ⟨(timeout_duration_strict_expiry.1 ⟨0, 5, 5⟩ 5 (by decide)).mpr (by decide),
   timeout_duration_strict_expiry.2.1 ⟨0, 5, 5⟩ 2 3 (by decide),
   timeout_duration_strict_expiry.2.2.1 4 9 ⟨4, 0, 0⟩ [] (by decide)
     (by decide)⟩

/-- Model of `core::task::Poll`. -/
inductive Poll (α : Type) where
  | ready (x : α)
  | pending
deriving DecidableEq, Repr

/-- Outcome of one poll of a `Wrapper`: the poll result passed through to
the caller, and whether `timeout.reset()` was called during the poll. -/
structure PollOutcome (α : Type) where
  result : Poll α
  didReset : Bool
deriving DecidableEq, Repr

/-- Model of `Future::poll` for `Wrapper` (src/src/wrapper/mod.rs lines
141-154): on `Ready(x)` reset the timeout and pass `x` through, on
`Pending` pass through without resetting. -/
def futurePoll {α : Type} (inner : Poll α) : PollOutcome α :=
  match inner with
  | .ready x => { result := .ready x, didReset := true }
  | .pending => { result := .pending, didReset := false }

/-- Model of `Stream::poll_next` for `Wrapper` (src/src/wrapper/stream.rs
lines 14-23): on `Ready(x)` — for every `x`, including the end-of-stream
value `None` — reset the timeout and pass `x` through; on `Pending` pass
through without resetting. -/
def streamPollNext {ι : Type} (inner : Poll (Option ι)) :
    PollOutcome (Option ι) :=
  match inner with
  | .ready x => { result := .ready x, didReset := true }
  | .pending => { result := .pending, didReset := false }

/-- Model of `AsyncRead::poll_read` for `Wrapper`
(src/src/wrapper/tokio_read_write.rs lines 8-23; the futures-io variant at
src/src/wrapper/futures_io_read_write.rs lines 11-26 has the same shape):
the inner poll result is `Ready(Ok(n))` with `n` the bytes placed in the
buffer, `Ready(Err(e))`, or `Pending`; the timeout is reset only on
`Ready(Ok(n))` with a non-empty fill, every other case passes through. -/
def poll_read {ε : Type} (inner : Poll (Except ε Nat)) :
    PollOutcome (Except ε Nat) :=
  match inner with
  | .ready (.ok n) =>
    if n ≠ 0 then { result := .ready (.ok n), didReset := true }
    else { result := .ready (.ok n), didReset := false }
  | x => { result := x, didReset := false }

/-- Model of `AsyncWrite::poll_write` for `Wrapper`
(src/src/wrapper/tokio_read_write.rs lines 35-48; the vectored and
futures-io variants have the same shape): reset only on `Ready(Ok(n))`
with `n > 0` bytes written, every other case passes through. -/
def poll_write {ε : Type} (inner : Poll (Except ε Nat)) :
    PollOutcome (Except ε Nat) :=
  match inner with
  | .ready (.ok n) =>
    if 0 < n then { result := .ready (.ok n), didReset := true }
    else { result := .ready (.ok n), didReset := false }
  | x => { result := x, didReset := false }

/-- Counterexample to claim C7 as stated: the stream wrapper's
`poll_next` calls `reset()` on every `Ready` result, including the
end-of-stream result `Ready(None)` in which no item is produced, where
the claim says reset is never called on EOF results. -/
theorem stream_reset_on_eof_counterexample :
    (streamPollNext (Poll.ready (none : Option Unit))).didReset = true := rfl

/-- Claim C7 (amended): the read and write wrappers reset exactly once
per `Ready(Ok)` poll with non-zero bytes transferred and never on
zero-length results, errors, or `Pending`; the future wrapper resets on
every completion and the stream wrapper resets on every `Ready` result —
including end-of-stream `None` — not only when an item is produced; no
wrapper resets on `Pending`, and every wrapper passes the inner result
through unchanged. -/
theorem wrapper_reset_characterization :
    (∀ (ε : Type) (inner : Poll (Except ε Nat)),
      ((poll_read inner).didReset = true ↔
        ∃ n, inner = .ready (.ok n) ∧ 0 < n) ∧
      (poll_read inner).result = inner) ∧
    (∀ (ε : Type) (inner : Poll (Except ε Nat)),
      ((poll_write inner).didReset = true ↔
        ∃ n, inner = .ready (.ok n) ∧ 0 < n) ∧
      (poll_write inner).result = inner) ∧
    (∀ (α : Type) (inner : Poll α),
      ((futurePoll inner).didReset = true ↔ ∃ x, inner = .ready x) ∧
      (futurePoll inner).result = inner) ∧
    (∀ (ι : Type) (inner : Poll (Option ι)),
      ((streamPollNext inner).didReset = true ↔ ∃ x, inner = .ready x) ∧
      (streamPollNext inner).result = inner) := by
  refine ⟨?_, ?_, ?_, ?_⟩
  · intro ε inner
    cases inner with
    | ready x =>
      cases x with
      | ok n =>
        by_cases hn : n = 0
        · subst hn
          exact ⟨by simp [poll_read], rfl⟩
        · refine ⟨⟨fun _ => ⟨n, rfl, Nat.pos_of_ne_zero hn⟩, fun _ => ?_⟩, ?_⟩
          · simp [poll_read, hn]
          · simp [poll_read, hn]
      | error e => exact ⟨by simp [poll_read], rfl⟩
    | pending => exact ⟨by simp [poll_read], rfl⟩
  · intro ε inner
    cases inner with
    | ready x =>
      cases x with
      | ok n =>
        by_cases hn : 0 < n
        · refine ⟨⟨fun _ => ⟨n, rfl, hn⟩, fun _ => ?_⟩, ?_⟩
          · simp [poll_write, hn]
          · simp [poll_write, hn]
        · have hn0 : n = 0 := Nat.eq_zero_of_not_pos hn
          subst hn0
          exact ⟨by simp [poll_write], rfl⟩
      | error e => exact ⟨by simp [poll_write], rfl⟩
    | pending => exact ⟨by simp [poll_write], rfl⟩
  · intro α inner
    cases inner with
    | ready x => exact ⟨⟨fun _ => ⟨x, rfl⟩, fun _ => rfl⟩, rfl⟩
    | pending => exact ⟨by simp [futurePoll], rfl⟩
  · intro ι inner
    cases inner with
    | ready x => exact ⟨⟨fun _ => ⟨x, rfl⟩, fun _ => rfl⟩, rfl⟩
    | pending => exact ⟨by simp [streamPollNext], rfl⟩

/-- Operations of the timeout's public mutating/observing API, each with
the clock reading it performs; `waitPoll` is one `timeout_duration`
observation made by a pending `wait`, which reads but never writes. -/
inductive Op where
  | reset (now : Nat)
  | setDefault (d : Nat)
  | waitPoll (now : Nat)
deriving DecidableEq, Repr

/-- Run a sequence of API calls against a timeout state, propagating
panics as `none`. -/
def runOps (t : Timeout) : List Op → Option Timeout
  | [] => some t
  | Op.reset now :: rest => (t.reset now).bind fun t1 => runOps t1 rest
  | Op.setDefault d :: rest =>
      (t.set_default_timeout d).bind fun t1 => runOps t1 rest
  | Op.waitPoll now :: rest =>
      (t.timeout_duration now).bind fun _ => runOps t rest

/-- Side conditions along an operation sequence: clock readings never
decrease (`lastNow` is the previous reading), every `set_default_timeout`
stores at least the default currently in effect (`d` tracks it), and no
elapsed-plus-default sum overflows `u64`. -/
def goodOps (ep : Nat) : Nat → Nat → List Op → Bool
  | _, _, [] => true
  | lastNow, d, Op.reset now :: rest =>
      decide (lastNow ≤ now) && decide (now - ep + d < u64size) &&
        goodOps ep now d rest
  | lastNow, d, Op.setDefault d' :: rest =>
      decide (d ≤ d') && decide (d' < u64size) && goodOps ep lastNow d' rest
  | lastNow, d, Op.waitPoll now :: rest =>
      decide (lastNow ≤ now) && decide (now - ep < u64size) &&
        goodOps ep now d rest

/-- Claim C8 (amended): along any sequence of `reset`,
`set_default_timeout` and `wait` observations in which the clock is
monotone, no elapsed-plus-default sum overflows, and the default timeout
is never decreased, the stored deadline `timeout_from_epoch_ns` never
decreases — each `reset` stores a value no smaller than the one it
replaces.  (When a `set_default_timeout` decreases the default this
fails; see the counterexample.)  The invariant hypothesis says the
current deadline does not exceed what a reset at the last clock reading
would store, which holds at construction and is preserved by every
operation. -/
theorem deadline_monotone_without_default_decrease :
    ∀ (ops : List Op) (t : Timeout) (lastNow : Nat),
      t.timeout_from_epoch_ns ≤ lastNow - t.epoch + t.default_timeout →
      goodOps t.epoch lastNow t.default_timeout ops = true →
      ∀ t', runOps t ops = some t' →
        t.timeout_from_epoch_ns ≤ t'.timeout_from_epoch_ns := by
  intro ops
  induction ops with
  | nil =>
    intro t lastNow hinv hgood t' hrun
    simp only [runOps, Option.some.injEq] at hrun
    cases hrun
    exact Nat.le_refl _
  | cons op rest ih =>
    intro t lastNow hinv hgood t' hrun
    cases op with
    | reset now =>
      simp only [goodOps, Bool.and_eq_true, decide_eq_true_eq] at hgood
      obtain ⟨⟨hmono, hfit⟩, hrest⟩ := hgood
      have hfit' : t.elapsed now + t.default_timeout < u64size := hfit
      have he : t.elapsed now < u64size :=
        lt_of_le_of_lt (Nat.le_add_right _ _) hfit'
      have hreset : t.reset now = some
          { t with timeout_from_epoch_ns :=
              (t.elapsed now + t.default_timeout) % u64size } :=
        (reset_some_iff t now _).mpr ⟨he, rfl⟩
      simp only [runOps] at hrun
      rw [hreset] at hrun
      simp only [Option.some_bind] at hrun
      have hstep := ih
        { t with timeout_from_epoch_ns :=
            (t.elapsed now + t.default_timeout) % u64size } now
        (by
          show (t.elapsed now + t.default_timeout) % u64size ≤
            now - t.epoch + t.default_timeout
          rw [Nat.mod_eq_of_lt hfit']
          exact Nat.le_refl _)
        hrest t' hrun
      refine le_trans ?_ hstep
      show t.timeout_from_epoch_ns ≤
        (t.elapsed now + t.default_timeout) % u64size
      rw [Nat.mod_eq_of_lt hfit']
      exact le_trans hinv
        (Nat.add_le_add_right (Nat.sub_le_sub_right hmono t.epoch) _)
    | setDefault d' =>
      simp only [goodOps, Bool.and_eq_true, decide_eq_true_eq] at hgood
      obtain ⟨⟨hdle, hdlt⟩, hrest⟩ := hgood
      have hset : t.set_default_timeout d' =
          some { t with default_timeout := d' } :=
        (set_default_some_iff t d' _).mpr ⟨hdlt, rfl⟩
      simp only [runOps] at hrun
      rw [hset] at hrun
      simp only [Option.some_bind] at hrun
      exact ih { t with default_timeout := d' } lastNow
        (le_trans hinv (Nat.add_le_add_left hdle _)) hrest t' hrun
    | waitPoll now =>
      simp only [goodOps, Bool.and_eq_true, decide_eq_true_eq] at hgood
      obtain ⟨⟨hmono, hfitw⟩, hrest⟩ := hgood
      have hfitw' : t.elapsed now < u64size := hfitw
      have hv : t.timeout_duration now =
          some (if t.elapsed now < t.timeout_from_epoch_ns
                then some (t.timeout_from_epoch_ns - t.elapsed now)
                else none) := by
        simp [Timeout.timeout_duration, timeoutDurationNs, u64try, hfitw']
      simp only [runOps] at hrun
      rw [hv] at hrun
      simp only [Option.some_bind] at hrun
      exact ih t now
        (le_trans hinv
          (Nat.add_le_add_right (Nat.sub_le_sub_right hmono t.epoch) _))
        hrest t' hrun

/-- Witness for amended C8 on a concrete run: from deadline 10 a reset at
4 stores 14, a wait observation at 6 changes nothing, the default grows
from 10 to 20, and a reset at 7 stores 27 ≥ 10. -/
theorem deadline_monotone_witness :
    (Timeout.mk 0 10 10).timeout_from_epoch_ns ≤
      (Timeout.mk 0 27 20).timeout_from_epoch_ns :=
  deadline_monotone_without_default_decrease
    [Op.reset 4, Op.waitPoll 6, Op.setDefault 20, Op.reset 7]
    ⟨0, 10, 10⟩ 0 (by decide) (by decide) ⟨0, 27, 20⟩ (by decide)

/-- Counterexample to claim C8 as stated: starting from construction with
default 100, shrinking the default to 1 and then calling `reset` at
elapsed 5 ns stores deadline 6, strictly smaller than the deadline 100 it
replaces — `timeout_from_epoch_ns` is not monotonically non-decreasing
over sequences that include `set_default_timeout`. -/
theorem deadline_monotone_counterexample :
    Timeout.new 0 100 = some ⟨0, 100, 100⟩ ∧
    runOps ⟨0, 100, 100⟩ [Op.setDefault 1, Op.reset 5] = some ⟨0, 6, 1⟩ ∧
    (6 : Nat) < 100 :=
  ⟨by decide, by decide, by decide⟩
